import Mathlib

/-!
# Verification of the Mifare access library (`src/mifare.js`)

Shallow embedding of the Mifare card-access script: the CRC-8 checksum,
the sector access-condition codec operating on the cached trailer block,
and the card-session commands (load key, read block, authenticate) with
the sector-level operations built on them.  Byte strings are modelled as
`List Nat`, machine integers as `Nat` with explicit masking, commands
sent to the reader as an explicit trace of APDUs, and the reader/card as
an abstract oracle assigning a status word and response data to each
command given the command history.
-/

/-- Big-endian unsigned integer value of a byte string
(`ByteString.toUnsigned`). -/
def toUnsigned (b : List Nat) : Nat :=
  b.foldl (fun a x => a * 256 + x) 0

/-- Big-endian encoding of `n` into `len` bytes (`ByteString.valueOf(n, len)`). -/
def valueOf (n len : Nat) : List Nat :=
  (List.range len).map (fun i => (n >>> (8 * (len - 1 - i))) &&& 0xFF)

/-- `ByteString.bytes(off, len)`: the sub-string of `len` bytes starting at
offset `off`. -/
def bytesRange (d : List Nat) (off len : Nat) : List Nat :=
  (d.drop off).take len

/-- JavaScript `(~c) & m` for nonnegative `c`: on every bit where `m` is set
the result holds the complement of `c`'s bit, elsewhere `0`, which is
`(c ^^^ m) &&& m`. -/
def jsNotAnd (c m : Nat) : Nat :=
  (c ^^^ m) &&& m

namespace Mifare

/-- Identifier for Key A (`Mifare.KEY_A`). -/
def KEY_A : Nat := 0x60

/-- Identifier for Key B (`Mifare.KEY_B`). -/
def KEY_B : Nat := 0x61

/-- `Mifare.PUBLICKEYS`: well-known public key values, in table order
empty card, MAD Key A, default Key B, NDEF Key A. -/
def PUBLICKEYS : List (List Nat) :=
  [ [0xFF, 0xFF, 0xFF, 0xFF, 0xFF, 0xFF],
    [0xA0, 0xA1, 0xA2, 0xA3, 0xA4, 0xA5],
    [0xB0, 0xB1, 0xB2, 0xB3, 0xB4, 0xB5],
    [0xD3, 0xF7, 0xD3, 0xF7, 0xD3, 0xF7] ]

/-- One round of the inner loop of `Mifare.crc8`: record the high bit,
shift left masked to 8 bits, and fold in the polynomial `0x1D` when the
recorded high bit was set (JavaScript `if (msb)` is "if nonzero"). -/
def crc8Step (crc : Nat) : Nat :=
  let msb := crc &&& 0x80
  let crc1 := (crc <<< 1) &&& 0xFF
  if msb ≠ 0 then crc1 ^^^ 0x1D else crc1

/-- `Mifare.crc8`: start value `0xC7`; for each data byte, XOR it into the
accumulator and run eight `crc8Step` rounds. -/
def crc8 (data : List Nat) : Nat :=
  data.foldl
    (fun crc byte => (List.range 8).foldl (fun c _ => crc8Step c) (crc ^^^ byte))
    0xC7

end Mifare

namespace Sector

/-- `Sector.MASK`: per-block masks applied to the 24-bit access-condition
field before inserting a block's new access bits. -/
def MASK : List Nat := [0x00E0EE, 0x00D0DD, 0x00B0BB, 0x007077]

/-- The bit extraction performed by `Sector.prototype.getACforBlock` on the
24-bit access-condition field `c`: assemble the 3-bit access condition of
`block` from bits `12 + block`, `0 + block` and `4 + block`. -/
def getACnum (c block : Nat) : Nat :=
  (((c >>> (12 + block)) &&& 1) <<< 2) +
    (((c >>> (0 + block)) &&& 1) <<< 1) +
    ((c >>> (4 + block)) &&& 1)

/-- `Sector.prototype.getACforBlock` acting on the cached trailer block
`this.blocks[3]`: read the 24-bit big-endian field from trailer bytes 6..8
and decode the access condition of `block` from it. -/
def getACforBlock (trailer : List Nat) (block : Nat) : Nat :=
  getACnum (toUnsigned (bytesRange trailer 6 3)) block

/-- The field update performed by `Sector.prototype.setACforBlock` on the
24-bit access-condition field: mask with `MASK[block]`, OR in the new
access bits at positions `12 + block`, `0 + block`, `4 + block`, then OR
in the three complement nibbles computed from the resulting value. -/
def setACnum (c0 block ac : Nat) : Nat :=
  let c1 := c0 &&& MASK.getD block 0
  let c2 := c1 |||
    ((((ac >>> 2) &&& 1) <<< (12 + block)) +
      (((ac >>> 1) &&& 1) <<< (0 + block)) +
      ((ac &&& 1) <<< (4 + block)))
  c2 |||
    ((jsNotAnd c2 0xF <<< 20) + (jsNotAnd c2 0xF0 <<< 4) +
      (jsNotAnd c2 0xF000 <<< 4))

/-- `Sector.prototype.setACforBlock` acting on the cached trailer block:
update the 24-bit big-endian field read from trailer bytes 6..8 and splice
the result back into bytes 6..8. -/
def setACforBlock (trailer : List Nat) (block ac : Nat) : List Nat :=
  trailer.take 6 ++
    (valueOf (setACnum (toUnsigned (bytesRange trailer 6 3)) block ac) 3 ++
      trailer.drop 9)

/-- `Sector.prototype.setKeyA` acting on the cached trailer block:
`key.concat(d.bytes(6))`. -/
def setKeyA (trailer key : List Nat) : List Nat :=
  key ++ trailer.drop 6

/-- `Sector.prototype.setKeyB` acting on the cached trailer block:
`d.bytes(0, 10).concat(key)`. -/
def setKeyB (trailer key : List Nat) : List Nat :=
  trailer.take 10 ++ key

/-- `Sector.prototype.setHeaderDataByte` acting on the cached trailer
block: `d.bytes(0, 9).concat(db).concat(d.bytes(10))`. -/
def setHeaderDataByte (trailer db : List Nat) : List Nat :=
  trailer.take 9 ++ db ++ trailer.drop 10

end Sector

/-- A command APDU sent to the reader (class, instruction, parameters,
command data, expected response length). -/
structure Apdu where
  cla : Nat
  ins : Nat
  p1 : Nat
  p2 : Nat
  data : List Nat
  le : Option Nat
deriving DecidableEq

/-- The reader/card oracle: the status word and response data it returns
for a command, given the history of commands already sent to it. -/
structure Card where
  sw : List Apdu → Apdu → Nat
  resp : List Apdu → Apdu → List Nat

/-- Session state of the `card` object: the trace of commands sent so far
and the last status word (`this.card.SW`). -/
structure MifareSt where
  trace : List Apdu
  lastSW : Nat
deriving DecidableEq

/-- `this.card.sendApdu(...)`: send the command (append it to the trace,
record its status word); when a list of accepted status words is supplied
and the returned status word is not among them, fail hard. -/
def sendApdu (card : Card) (s : MifareSt) (a : Apdu) (accepted : List Nat) :
    Except Unit (List Nat × MifareSt) :=
  let sw := card.sw s.trace a
  let s' : MifareSt := ⟨s.trace ++ [a], sw⟩
  if accepted = [] ∨ sw ∈ accepted then .ok (card.resp s.trace a, s')
  else .error ()

namespace Mifare

/-- `Mifare.prototype.getUID`: Get Data command expecting 4 bytes. -/
def getUID (card : Card) (s : MifareSt) : Except Unit (List Nat × MifareSt) :=
  sendApdu card s ⟨0xFF, 0xCA, 0x00, 0x00, [], some 4⟩ [0x9000]

/-- The Load Key APDU `Mifare.prototype.loadKey` sends for a given key id:
the proprietary SDI010 preset-slot variant (P1 = 0x00) when the key id is
0x60 or 0x61, the standard variant (P1 = 0x20) otherwise. -/
def loadKeyApdu (keyid : Nat) (key : List Nat) : Apdu :=
  if keyid = 0x60 ∨ keyid = 0x61 then ⟨0xFF, 0x82, 0x00, keyid, key, none⟩
  else ⟨0xFF, 0x82, 0x20, keyid, key, none⟩

/-- `Mifare.prototype.loadKey`: assert the key is 6 bytes, then send one
of the two Load Key command variants, requiring status word 0x9000. -/
def loadKey (card : Card) (s : MifareSt) (keyid : Nat) (key : List Nat) :
    Except Unit MifareSt :=
  if key.length = 6 then
    if keyid = 0x60 ∨ keyid = 0x61 then
      (sendApdu card s ⟨0xFF, 0x82, 0x00, keyid, key, none⟩ [0x9000]).map (·.2)
    else
      (sendApdu card s ⟨0xFF, 0x82, 0x20, keyid, key, none⟩ [0x9000]).map (·.2)
  else .error ()

/-- The Read Binary APDU sent by `Mifare.prototype.readBlock`. -/
def readBlockApdu (block : Nat) : Apdu :=
  ⟨0xFF, 0xB0, block >>> 8, block &&& 0xFF, [], some 16⟩

/-- `Mifare.prototype.readBlock`: Read Binary of 16 bytes at the absolute
block address, requiring status word 0x9000. -/
def readBlock (card : Card) (s : MifareSt) (block : Nat) :
    Except Unit (List Nat × MifareSt) :=
  sendApdu card s (readBlockApdu block) [0x9000]

/-- `Mifare.prototype.updateBlock`: assert 16 data bytes, then Update
Binary at the absolute block address, requiring status word 0x9000. -/
def updateBlock (card : Card) (s : MifareSt) (block : Nat) (data : List Nat) :
    Except Unit (List Nat × MifareSt) :=
  if data.length = 16 then
    sendApdu card s ⟨0xFF, 0xD6, block >>> 8, block &&& 0xFF, data, none⟩ [0x9000]
  else .error ()

/-- The 5-byte payload built by `Mifare.prototype.authenticate`: version
byte 0x01, 2-byte big-endian block address, key type, and the key id —
replaced by 0x01 when the key id is 0x60 or 0x61 (SCM SDI 010). -/
def authPayload (block keytype keyid : Nat) : List Nat :=
  ([0x01] ++ valueOf block 2 ++ [keytype]) ++
    [if keyid ≠ 0x60 ∧ keyid ≠ 0x61 then keyid else 0x01]

/-- The General Authenticate APDU sent by `Mifare.prototype.authenticate`. -/
def authApdu (block keytype keyid : Nat) : Apdu :=
  ⟨0xFF, 0x86, 0x00, 0x00, authPayload block keytype keyid, none⟩

/-- `Mifare.prototype.authenticate`: send the General Authenticate command
with no accepted-status list (so it never fails hard), then report whether
the status word equals 0x9000.  The `.error` branch is unreachable because
the accepted list is empty. -/
def authenticate (card : Card) (s : MifareSt) (block keytype keyid : Nat) :
    Bool × MifareSt :=
  match sendApdu card s (authApdu block keytype keyid) [] with
  | .ok (_, s') => (decide (s'.lastSW = 0x9000), s')
  | .error _ => (false, s)

end Mifare

/-- A sector object: sector number, lazily cached blocks, and the key id
pair `[idA, idB]` (`new Sector` starts with nothing cached and `[0, 1]`). -/
structure Sector where
  no : Nat
  blocks : Nat → Option (List Nat)
  keyid : List Nat

namespace Sector

/-- `Sector.prototype.read`: assert the block index is between 0 and 3,
read the block at absolute address `(no << 2) + block` and cache it. -/
def read (card : Card) (sec : Sector) (s : MifareSt) (block : Nat) :
    Except Unit (List Nat × Sector × MifareSt) :=
  if block ≤ 3 then
    match Mifare.readBlock card s ((sec.no <<< 2) + block) with
    | .ok (r, s') =>
        .ok (r, { sec with blocks := Function.update sec.blocks block (some r) }, s')
    | .error e => .error e
  else .error ()

/-- `Sector.prototype.authenticate`: delegate to the session with this
sector's stored key id for the key type. -/
def authenticate (card : Card) (sec : Sector) (s : MifareSt)
    (block keytype : Nat) : Bool × MifareSt :=
  Mifare.authenticate card s ((sec.no <<< 2) + block) keytype
    (sec.keyid.getD (keytype - Mifare.KEY_A) 0)

/-- The probing loop of `Sector.prototype.authenticatePublic`: for each
remaining public key in order, load it into the reader under this sector's
key id and attempt authentication, returning the running index on the
first success, and -1 when the table is exhausted. -/
def authPublicLoop (card : Card) (sec : Sector) (block keytype : Nat) :
    List (List Nat) → Nat → MifareSt → Except Unit (Int × MifareSt)
  | [], _, s => .ok (-1, s)
  | key :: rest, i, s =>
    match Mifare.loadKey card s (sec.keyid.getD (keytype - Mifare.KEY_A) 0) key with
    | .error e => .error e
    | .ok s1 =>
      let r := authenticate card sec s1 block keytype
      if r.1 then .ok ((i : Int), r.2)
      else authPublicLoop card sec block keytype rest (i + 1) r.2

/-- `Sector.prototype.authenticatePublic`: probe the public key table in
order starting at index 0. -/
def authenticatePublic (card : Card) (sec : Sector) (s : MifareSt)
    (block keytype : Nat) : Except Unit (Int × MifareSt) :=
  authPublicLoop card sec block keytype Mifare.PUBLICKEYS 0 s

/-- `Sector.prototype.readAll`: default the key type to Key A when
omitted, authenticate once against block 0 of the sector discarding the
boolean result, then read the four blocks in order 0,1,2,3 and return
their concatenation.  The source's four-iteration `for` loop is unrolled. -/
def readAll (card : Card) (sec : Sector) (s : MifareSt) (keytype : Option Nat) :
    Except Unit (List Nat × Sector × MifareSt) := do
  let kt := keytype.getD Mifare.KEY_A
  let s1 := (authenticate card sec s 0 kt).2
  let (r0, sec0, s2) ← read card sec s1 0
  let (r1, sec1, s3) ← read card sec0 s2 1
  let (r2, sec2, s4) ← read card sec1 s3 2
  let (r3, sec3, s5) ← read card sec2 s4 3
  return (((r0 ++ r1) ++ r2) ++ r3, sec3, s5)

end Sector

/-- Commands emitted by the first `n` complete (load key, authenticate)
probe pairs of `authenticatePublic`, for a sector using key id `kid`
against absolute block `blockAbs`. -/
def probeTrace (kid blockAbs keytype : Nat) : Nat → List Apdu
  | 0 => []
  | n + 1 =>
    probeTrace kid blockAbs keytype n ++
      [Mifare.loadKeyApdu kid (Mifare.PUBLICKEYS.getD n []),
        Mifare.authApdu blockAbs keytype kid]

/-- Whether the `i`-th probe of `authenticatePublic` authenticates
successfully: the card answers 0x9000 to the authenticate command that
arrives after the first `i` probe pairs and the `(i+1)`-th load command. -/
def probeOk (card : Card) (tr : List Apdu) (kid blockAbs keytype i : Nat) : Bool :=
  decide
    (card.sw
        (tr ++ probeTrace kid blockAbs keytype i ++
          [Mifare.loadKeyApdu kid (Mifare.PUBLICKEYS.getD i [])])
        (Mifare.authApdu blockAbs keytype kid)
      = 0x9000)

/-- The 31-byte reference vector for `Mifare.crc8` recorded in the source
(`01010801080108000000000000040003100310021002100000000000001130`). -/
def crc8RefVector : List Nat :=
  [0x01, 0x01, 0x08, 0x01, 0x08, 0x01, 0x08, 0x00, 0x00, 0x00, 0x00, 0x00,
   0x00, 0x04, 0x00, 0x03, 0x10, 0x03, 0x10, 0x02, 0x10, 0x02, 0x10, 0x00,
   0x00, 0x00, 0x00, 0x00, 0x00, 0x11, 0x30]

/-- One CRC-8 round exactly as the specification words it: test the high
bit, shift left by one masked to 8 bits, and if the high bit tested was
set, XOR in the fixed polynomial 0x1D. -/
def crc8SpecRound (crc : Nat) : Nat :=
  if crc.testBit 7 then ((crc <<< 1) &&& 0xFF) ^^^ 0x1D
  else (crc <<< 1) &&& 0xFF

/-- `n` CRC-8 rounds as worded by the specification. -/
def crc8SpecRounds : Nat → Nat → Nat
  | 0, crc => crc
  | n + 1, crc => crc8SpecRounds n (crc8SpecRound crc)

/-- Byte-consuming recursion of the specification's CRC-8 algorithm: XOR
each input byte into the accumulator, then perform 8 rounds. -/
def crc8SpecGo : Nat → List Nat → Nat
  | crc, [] => crc
  | crc, b :: rest => crc8SpecGo (crc8SpecRounds 8 (crc ^^^ b)) rest

/-- The specification's CRC-8 algorithm, stated by structural recursion on
the input, independently of the source-shaped fold in `Mifare.crc8`:
initialize `crc = 0xC7`, then consume the input bytes. -/
def crc8Spec (data : List Nat) : Nat :=
  crc8SpecGo 0xC7 data

/-- The 24-bit big-endian access-condition field read from bytes 6..8 of a
trailer block (`this.blocks[3].bytes(6, 3).toUnsigned()`). -/
def trailerACField (trailer : List Nat) : Nat :=
  toUnsigned (bytesRange trailer 6 3)

/-- The single authentication APDU issued by `readAll`: against block 0 of
the sector, with the key type defaulted to Key A when omitted and this
sector's stored key id for that key type. -/
def readAllAuthApdu (sec : Sector) (keytype : Option Nat) : Apdu :=
  Mifare.authApdu ((sec.no <<< 2) + 0) (keytype.getD Mifare.KEY_A)
    (sec.keyid.getD (keytype.getD Mifare.KEY_A - Mifare.KEY_A) 0)

/-- The full command sequence `readAll` issues: one authentication against
block 0, then the four block reads at offsets 0, 1, 2, 3 in order. -/
def readAllCmds (sec : Sector) (keytype : Option Nat) : List Apdu :=
  [readAllAuthApdu sec keytype,
    Mifare.readBlockApdu ((sec.no <<< 2) + 0),
    Mifare.readBlockApdu ((sec.no <<< 2) + 1),
    Mifare.readBlockApdu ((sec.no <<< 2) + 2),
    Mifare.readBlockApdu ((sec.no <<< 2) + 3)]

/-- Evaluation fixture: a reader/card that accepts every command with
status word 0x9000 and answers every read with 16 zero bytes. -/
def cardAccepts : Card :=
  ⟨fun _ _ => 0x9000, fun _ _ => List.replicate 16 0⟩

/-- Evaluation fixture: a reader/card that rejects every General
Authenticate command with status word 0x6300 and accepts everything
else. -/
def cardAuthFail : Card :=
  ⟨fun _ a => if a.ins = 0x86 then 0x6300 else 0x9000,
    fun _ _ => List.replicate 16 0⟩

/-- Evaluation fixture: a fresh sector 0 with nothing cached and the
default key id pair `[0, 1]`. -/
def sector0 : Sector :=
  ⟨0, fun _ => none, [0, 1]⟩

/-- Evaluation fixture: an initial session state with an empty trace. -/
def st0 : MifareSt :=
  ⟨[], 0⟩

/-! ## Bit-level toolkit -/

theorem add_eq_or_of_and_eq_zero : ∀ a b : Nat, a &&& b = 0 → a + b = a ||| b := by
  intro a
  induction a using Nat.strongRecOn with
  | ind a ih =>
    intro b h
    rcases Nat.eq_zero_or_pos a with ha | ha
    · subst ha; simp
    · have hd : a / 2 &&& b / 2 = 0 := by
        rw [← Nat.and_div_two, h]
      have hm : ¬(a % 2 = 1 ∧ b % 2 = 1) := by
        intro hc
        have h1 : (a &&& b) % 2 = 1 := Nat.and_mod_two_eq_one.mpr hc
        rw [h] at h1
        omega
      have ih2 := ih (a / 2) (Nat.div_lt_self ha (by omega)) (b / 2) hd
      have hor2 : (a ||| b) / 2 = a / 2 ||| b / 2 := Nat.or_div_two
      have horm : ((a ||| b) % 2 = 1) ↔ (a % 2 = 1 ∨ b % 2 = 1) := Nat.or_mod_two_eq_one
      have e1 := Nat.div_add_mod a 2
      have e2 := Nat.div_add_mod b 2
      have e3 := Nat.div_add_mod (a ||| b) 2
      have hma : a % 2 < 2 := Nat.mod_lt _ (by omega)
      have hmb : b % 2 < 2 := Nat.mod_lt _ (by omega)
      have hmo : (a ||| b) % 2 < 2 := Nat.mod_lt _ (by omega)
      omega

/-- Two values with disjoint binary support AND to zero: one lies below
`2 ^ n`, the other has its low `n` bits clear. -/
theorem and_eq_zero_of_lt_of_low (x y n : Nat) (hx : x < 2 ^ n)
    (hy : y % 2 ^ n = 0) : x &&& y = 0 := by
  refine Nat.eq_of_testBit_eq fun p => ?_
  simp only [Nat.testBit_and, Nat.zero_testBit]
  by_cases hp : p < n
  · have h0 : (y % 2 ^ n).testBit p = false := by
      rw [hy]; exact Nat.zero_testBit p
    rw [Nat.testBit_mod_two_pow, decide_eq_true hp, Bool.true_and] at h0
    simp [h0]
  · have hxp : x.testBit p = false :=
      Nat.testBit_lt_two_pow
        (lt_of_lt_of_le hx (Nat.pow_le_pow_right (by omega) (by omega)))
    simp [hxp]

theorem bit_shl_lt (a k : Nat) (ha : a ≤ 1) : a <<< k < 2 ^ (k + 1) := by
  rw [Nat.shiftLeft_eq]
  have h1 : a * 2 ^ k ≤ 1 * 2 ^ k := Nat.mul_le_mul_right _ ha
  have h2 : 0 < 2 ^ k := Nat.two_pow_pos k
  have h3 : 2 ^ (k + 1) = 2 ^ k * 2 := Nat.pow_succ ..
  omega

theorem shl_mod_eq_zero (b k l : Nat) (h : k ≤ l) : (b <<< l) % 2 ^ k = 0 := by
  rw [Nat.shiftLeft_eq]
  exact Nat.mod_eq_zero_of_dvd (Dvd.dvd.mul_left (pow_dvd_pow 2 h) b)

/-- The three access bits of a block occupy pairwise distinct positions,
so the `+` in `setACforBlock`'s bit insertion is a disjoint OR. -/
theorem nbOr (ac i : Nat) :
    (((ac >>> 2) &&& 1) <<< (12 + i)) + (((ac >>> 1) &&& 1) <<< (0 + i)) +
        ((ac &&& 1) <<< (4 + i)) =
      ((((ac >>> 2) &&& 1) <<< (12 + i)) ||| (((ac >>> 1) &&& 1) <<< (0 + i))) |||
        ((ac &&& 1) <<< (4 + i)) := by
  have h21 : (((ac >>> 2) &&& 1) <<< (12 + i)) &&& (((ac >>> 1) &&& 1) <<< (0 + i)) = 0 := by
    rw [Nat.and_comm]
    exact and_eq_zero_of_lt_of_low _ _ (0 + i + 1)
      (bit_shl_lt _ _ Nat.and_le_right) (shl_mod_eq_zero _ _ _ (by omega))
  have h210 : ((((ac >>> 2) &&& 1) <<< (12 + i)) ||| (((ac >>> 1) &&& 1) <<< (0 + i))) &&&
      ((ac &&& 1) <<< (4 + i)) = 0 := by
    rw [Nat.and_distrib_right]
    have ha : (((ac >>> 2) &&& 1) <<< (12 + i)) &&& ((ac &&& 1) <<< (4 + i)) = 0 := by
      rw [Nat.and_comm]
      exact and_eq_zero_of_lt_of_low _ _ (4 + i + 1)
        (bit_shl_lt _ _ Nat.and_le_right) (shl_mod_eq_zero _ _ _ (by omega))
    have hb : (((ac >>> 1) &&& 1) <<< (0 + i)) &&& ((ac &&& 1) <<< (4 + i)) = 0 :=
      and_eq_zero_of_lt_of_low _ _ (0 + i + 1)
        (bit_shl_lt _ _ Nat.and_le_right) (shl_mod_eq_zero _ _ _ (by omega))
    rw [ha, hb]
    simp
  rw [add_eq_or_of_and_eq_zero _ _ h21, add_eq_or_of_and_eq_zero _ _ h210]

/-- The three complement nibbles occupy pairwise disjoint bit ranges
(20..23, 8..11, 16..19), so their `+` is a disjoint OR. -/
theorem complOr (x : Nat) :
    (jsNotAnd x 0xF <<< 20) + (jsNotAnd x 0xF0 <<< 4) + (jsNotAnd x 0xF000 <<< 4) =
      ((jsNotAnd x 0xF <<< 20) ||| (jsNotAnd x 0xF0 <<< 4)) |||
        (jsNotAnd x 0xF000 <<< 4) := by
  have hb1 : jsNotAnd x 0xF0 <<< 4 < 2 ^ 12 := by
    have : jsNotAnd x 0xF0 ≤ 0xF0 := Nat.and_le_right
    rw [Nat.shiftLeft_eq]
    have h2 : jsNotAnd x 0xF0 * 2 ^ 4 ≤ 0xF0 * 2 ^ 4 := Nat.mul_le_mul_right _ this
    omega
  have hb2 : jsNotAnd x 0xF000 <<< 4 < 2 ^ 20 := by
    have : jsNotAnd x 0xF000 ≤ 0xF000 := Nat.and_le_right
    rw [Nat.shiftLeft_eq]
    have h2 : jsNotAnd x 0xF000 * 2 ^ 4 ≤ 0xF000 * 2 ^ 4 := Nat.mul_le_mul_right _ this
    omega
  have h12 : (jsNotAnd x 0xF <<< 20) &&& (jsNotAnd x 0xF0 <<< 4) = 0 := by
    rw [Nat.and_comm]
    exact and_eq_zero_of_lt_of_low _ _ 12 hb1 (shl_mod_eq_zero _ _ _ (by omega))
  have h13 : (jsNotAnd x 0xF <<< 20) &&& (jsNotAnd x 0xF000 <<< 4) = 0 := by
    rw [Nat.and_comm]
    exact and_eq_zero_of_lt_of_low _ _ 20 hb2 (shl_mod_eq_zero _ _ _ (by omega))
  have h23 : (jsNotAnd x 0xF0 <<< 4) &&& (jsNotAnd x 0xF000 <<< 4) = 0 := by
    have hdvd : jsNotAnd x 0xF000 % 2 ^ 12 = 0 := by
      have : jsNotAnd x 0xF000 &&& (2 ^ 12 - 1) =
          (x ^^^ 0xF000) &&& (0xF000 &&& (2 ^ 12 - 1)) := by
        rw [jsNotAnd, Nat.and_assoc]
      rw [← Nat.and_pow_two_sub_one_eq_mod, this]
      have h0 : (61440 : Nat) &&& (2 ^ 12 - 1) = 0 := by decide
      rw [h0, Nat.and_zero]
    obtain ⟨d, hd⟩ := Nat.dvd_of_mod_eq_zero hdvd
    have : jsNotAnd x 0xF000 <<< 4 % 2 ^ 16 = 0 := by
      rw [Nat.shiftLeft_eq, hd]
      have : 2 ^ 12 * d * 2 ^ 4 = 2 ^ 16 * d := by ring
      rw [this, Nat.mul_mod_right]
    exact and_eq_zero_of_lt_of_low _ _ 16 (lt_trans hb1 (by norm_num)) this
  have h123 : ((jsNotAnd x 0xF <<< 20) ||| (jsNotAnd x 0xF0 <<< 4)) &&&
      (jsNotAnd x 0xF000 <<< 4) = 0 := by
    rw [Nat.and_distrib_right, h13, h23]
    simp
  rw [add_eq_or_of_and_eq_zero _ _ h12, add_eq_or_of_and_eq_zero _ _ h123]

/-- `(x >>> k) &&& 1` is the `k`-th bit of `x`. -/
theorem shiftRight_and_one (x k : Nat) : (x >>> k) &&& 1 = (x.testBit k).toNat := by
  rw [Nat.and_one_is_mod, Nat.shiftRight_eq_div_pow, Nat.testBit_to_div_mod]
  rcases Nat.mod_two_eq_zero_or_one (x / 2 ^ k) with h | h <;> simp [h]


/-- `(jsNotAnd c m).testBit q` holds exactly where `m` has the bit set and
`c` does not. -/
theorem testBit_jsNotAnd (c m q : Nat) :
    (jsNotAnd c m).testBit q = (!c.testBit q && m.testBit q) := by
  simp only [jsNotAnd, Nat.testBit_and, Nat.testBit_xor]
  cases hc : c.testBit q <;> cases hm : m.testBit q <;> rfl

theorem testBit_c1 (q : Nat) : Nat.testBit 1 q = decide (q = 0) := by
  rw [show (1 : Nat) = 2 ^ 0 from rfl, Nat.testBit_two_pow]
  rcases Nat.eq_zero_or_pos q with h | h
  · simp [h]
  · have h1 : (0 : Nat) ≠ q := by omega
    have h2 : q ≠ 0 := by omega
    simp [h1, h2]

theorem testBit_c15 (q : Nat) : Nat.testBit 15 q = decide (q < 4) := by
  rw [show (15 : Nat) = 2 ^ 4 - 1 from rfl, Nat.testBit_two_pow_sub_one]

theorem testBit_c240 (q : Nat) : Nat.testBit 240 q = decide (4 ≤ q ∧ q < 8) := by
  by_cases h : q < 16
  · interval_cases q <;> decide
  · have hq : 16 ≤ q := by omega
    rw [Nat.testBit_lt_two_pow (lt_of_lt_of_le (show (240 : Nat) < 2 ^ 16 by norm_num)
      (Nat.pow_le_pow_right (by norm_num) hq))]
    symm
    simp only [decide_eq_false_iff_not]
    omega

theorem testBit_c61440 (q : Nat) : Nat.testBit 61440 q = decide (12 ≤ q ∧ q < 16) := by
  by_cases h : q < 16
  · interval_cases q <;> decide
  · have hq : 16 ≤ q := by omega
    rw [Nat.testBit_lt_two_pow (lt_of_lt_of_le (show (61440 : Nat) < 2 ^ 16 by norm_num)
      (Nat.pow_le_pow_right (by norm_num) hq))]
    symm
    simp only [decide_eq_false_iff_not]
    omega

theorem testBit_c57582 (q : Nat) :
    Nat.testBit 57582 q =
      decide (q = 1 ∨ q = 2 ∨ q = 3 ∨ q = 5 ∨ q = 6 ∨ q = 7 ∨ q = 13 ∨ q = 14 ∨ q = 15) := by
  by_cases h : q < 16
  · interval_cases q <;> decide
  · have hq : 16 ≤ q := by omega
    rw [Nat.testBit_lt_two_pow (lt_of_lt_of_le (show (57582 : Nat) < 2 ^ 16 by norm_num)
      (Nat.pow_le_pow_right (by norm_num) hq))]
    symm
    simp only [decide_eq_false_iff_not]
    omega

theorem testBit_c53469 (q : Nat) :
    Nat.testBit 53469 q =
      decide (q = 0 ∨ q = 2 ∨ q = 3 ∨ q = 4 ∨ q = 6 ∨ q = 7 ∨ q = 12 ∨ q = 14 ∨ q = 15) := by
  by_cases h : q < 16
  · interval_cases q <;> decide
  · have hq : 16 ≤ q := by omega
    rw [Nat.testBit_lt_two_pow (lt_of_lt_of_le (show (53469 : Nat) < 2 ^ 16 by norm_num)
      (Nat.pow_le_pow_right (by norm_num) hq))]
    symm
    simp only [decide_eq_false_iff_not]
    omega

theorem testBit_c45243 (q : Nat) :
    Nat.testBit 45243 q =
      decide (q = 0 ∨ q = 1 ∨ q = 3 ∨ q = 4 ∨ q = 5 ∨ q = 7 ∨ q = 12 ∨ q = 13 ∨ q = 15) := by
  by_cases h : q < 16
  · interval_cases q <;> decide
  · have hq : 16 ≤ q := by omega
    rw [Nat.testBit_lt_two_pow (lt_of_lt_of_le (show (45243 : Nat) < 2 ^ 16 by norm_num)
      (Nat.pow_le_pow_right (by norm_num) hq))]
    symm
    simp only [decide_eq_false_iff_not]
    omega

theorem testBit_c28791 (q : Nat) :
    Nat.testBit 28791 q =
      decide (q = 0 ∨ q = 1 ∨ q = 2 ∨ q = 4 ∨ q = 5 ∨ q = 6 ∨ q = 12 ∨ q = 13 ∨ q = 14) := by
  by_cases h : q < 16
  · interval_cases q <;> decide
  · have hq : 16 ≤ q := by omega
    rw [Nat.testBit_lt_two_pow (lt_of_lt_of_le (show (28791 : Nat) < 2 ^ 16 by norm_num)
      (Nat.pow_le_pow_right (by norm_num) hq))]
    symm
    simp only [decide_eq_false_iff_not]
    omega

/-- After `Sector.setACnum`, the three bit positions of block `i` hold the
three bits of the new access condition. -/
theorem setACnum_testBit_new (c ac i : Nat) (hi : i < 4) :
    ((Sector.setACnum c i ac).testBit (12 + i) = ac.testBit 2) ∧
      ((Sector.setACnum c i ac).testBit (0 + i) = ac.testBit 1) ∧
      ((Sector.setACnum c i ac).testBit (4 + i) = ac.testBit 0) := by
  simp only [Sector.setACnum]
  rw [nbOr, complOr]
  interval_cases i <;>
    simp +decide only [show Sector.MASK.getD 0 0 = 57582 from rfl,
      show Sector.MASK.getD 1 0 = 53469 from rfl,
      show Sector.MASK.getD 2 0 = 45243 from rfl,
      show Sector.MASK.getD 3 0 = 28791 from rfl,
      Nat.testBit_or, Nat.testBit_and, Nat.testBit_shiftLeft, Nat.testBit_shiftRight,
      testBit_jsNotAnd, testBit_c1, testBit_c15, testBit_c240, testBit_c61440,
      testBit_c57582, testBit_c53469, testBit_c45243, testBit_c28791,
      decide_True, decide_False, Bool.and_true, Bool.and_false, Bool.true_and,
      Bool.false_and, Bool.or_true, Bool.or_false, Bool.true_or, Bool.false_or,
      Bool.not_true, Bool.not_false, and_self]

/-- After `Sector.setACnum` for block `i`, every other real control bit of
the 24-bit field (positions below 8 or in 12..15 not owned by block `i`)
is unchanged. -/
theorem setACnum_testBit_preserved (c ac i p : Nat) (hi : i < 4) (hp : p < 16)
    (hmid : p < 8 ∨ 12 ≤ p) (h1 : p ≠ 12 + i) (h2 : p ≠ 0 + i) (h3 : p ≠ 4 + i) :
    (Sector.setACnum c i ac).testBit p = c.testBit p := by
  simp only [Sector.setACnum]
  rw [nbOr, complOr]
  interval_cases i <;> interval_cases p <;>
    first
    | omega
    | simp +decide only [show Sector.MASK.getD 0 0 = 57582 from rfl,
        show Sector.MASK.getD 1 0 = 53469 from rfl,
        show Sector.MASK.getD 2 0 = 45243 from rfl,
        show Sector.MASK.getD 3 0 = 28791 from rfl,
        Nat.testBit_or, Nat.testBit_and, Nat.testBit_shiftLeft, Nat.testBit_shiftRight,
        testBit_jsNotAnd, testBit_c1, testBit_c15, testBit_c240, testBit_c61440,
        testBit_c57582, testBit_c53469, testBit_c45243, testBit_c28791,
        decide_True, decide_False, Bool.and_true, Bool.and_false, Bool.true_and,
        Bool.false_and, Bool.or_true, Bool.or_false, Bool.true_or, Bool.false_or,
        Bool.not_true, Bool.not_false, and_self]

/-- After `Sector.setACnum`, each complement nibble bit is the negation of
the corresponding real nibble bit (byte 6 low nibble vs byte 7 high
nibble, byte 6 high nibble vs byte 8 low nibble, byte 7 low nibble vs
byte 8 high nibble). -/
theorem setACnum_testBit_compl (c ac i k : Nat) (hi : i < 4) (hk : k < 4) :
    ((Sector.setACnum c i ac).testBit (16 + k) =
        !(Sector.setACnum c i ac).testBit (12 + k)) ∧
      ((Sector.setACnum c i ac).testBit (20 + k) =
        !(Sector.setACnum c i ac).testBit (0 + k)) ∧
      ((Sector.setACnum c i ac).testBit (8 + k) =
        !(Sector.setACnum c i ac).testBit (4 + k)) := by
  simp only [Sector.setACnum]
  rw [nbOr, complOr]
  interval_cases i <;> interval_cases k <;>
    simp +decide only [show Sector.MASK.getD 0 0 = 57582 from rfl,
      show Sector.MASK.getD 1 0 = 53469 from rfl,
      show Sector.MASK.getD 2 0 = 45243 from rfl,
      show Sector.MASK.getD 3 0 = 28791 from rfl,
      Nat.testBit_or, Nat.testBit_and, Nat.testBit_shiftLeft, Nat.testBit_shiftRight,
      testBit_jsNotAnd, testBit_c1, testBit_c15, testBit_c240, testBit_c61440,
      testBit_c57582, testBit_c53469, testBit_c45243, testBit_c28791,
      decide_True, decide_False, Bool.and_true, Bool.and_false, Bool.true_and,
      Bool.false_and, Bool.or_true, Bool.or_false, Bool.true_or, Bool.false_or,
      Bool.not_true, Bool.not_false, and_self]

/-- The value written back by `setACforBlock` fits in 24 bits, so it
survives the 3-byte big-endian round trip. -/
theorem setACnum_lt (c ac i : Nat) (hi : i < 4) : Sector.setACnum c i ac < 2 ^ 24 := by
  simp only [Sector.setACnum]
  rw [nbOr, complOr]
  have hc1 : c &&& Sector.MASK.getD i 0 < 2 ^ 16 := by
    interval_cases i <;> exact Nat.and_lt_two_pow _ (by decide)
  have hb2 : ((ac >>> 2) &&& 1) <<< (12 + i) < 2 ^ 16 :=
    lt_of_lt_of_le (bit_shl_lt _ _ Nat.and_le_right)
      (Nat.pow_le_pow_right (by omega) (by omega))
  have hb1 : ((ac >>> 1) &&& 1) <<< (0 + i) < 2 ^ 16 :=
    lt_of_lt_of_le (bit_shl_lt _ _ Nat.and_le_right)
      (Nat.pow_le_pow_right (by omega) (by omega))
  have hb0 : (ac &&& 1) <<< (4 + i) < 2 ^ 16 :=
    lt_of_lt_of_le (bit_shl_lt _ _ Nat.and_le_right)
      (Nat.pow_le_pow_right (by omega) (by omega))
  have hc2 : c &&& Sector.MASK.getD i 0 |||
      ((((ac >>> 2) &&& 1) <<< (12 + i) ||| ((ac >>> 1) &&& 1) <<< (0 + i)) |||
        (ac &&& 1) <<< (4 + i)) < 2 ^ 16 :=
    Nat.or_lt_two_pow hc1 (Nat.or_lt_two_pow (Nat.or_lt_two_pow hb2 hb1) hb0)
  have hgen : ∀ y : Nat, y < 2 ^ 16 →
      (y ||| ((jsNotAnd y 0xF <<< 20 ||| jsNotAnd y 0xF0 <<< 4) |||
        jsNotAnd y 0xF000 <<< 4)) < 2 ^ 24 := by
    intro y hy
    have hs1 : jsNotAnd y 0xF <<< 20 < 2 ^ 24 := by
      rw [Nat.shiftLeft_eq]
      have h := Nat.and_le_right (n := y ^^^ 0xF) (m := 0xF)
      rw [jsNotAnd]
      omega
    have hs2 : jsNotAnd y 0xF0 <<< 4 < 2 ^ 24 := by
      rw [Nat.shiftLeft_eq]
      have h := Nat.and_le_right (n := y ^^^ 0xF0) (m := 0xF0)
      rw [jsNotAnd]
      omega
    have hs3 : jsNotAnd y 0xF000 <<< 4 < 2 ^ 24 := by
      rw [Nat.shiftLeft_eq]
      have h := Nat.and_le_right (n := y ^^^ 0xF000) (m := 0xF000)
      rw [jsNotAnd]
      omega
    exact Nat.or_lt_two_pow (lt_trans hy (by norm_num))
      (Nat.or_lt_two_pow (Nat.or_lt_two_pow hs1 hs2) hs3)
  exact hgen _ hc2

theorem valueOf_length (n len : Nat) : (valueOf n len).length = len := by
  simp [valueOf]

theorem toUnsigned_valueOf3 (n : Nat) (h : n < 2 ^ 24) :
    toUnsigned (valueOf n 3) = n := by
  have h3 : valueOf n 3 =
      [(n >>> 16) &&& 255, (n >>> 8) &&& 255, (n >>> 0) &&& 255] := by
    simp [valueOf, List.range_succ]
  rw [h3]
  simp only [toUnsigned, List.foldl]
  rw [Nat.shiftRight_eq_div_pow, Nat.shiftRight_eq_div_pow, Nat.shiftRight_eq_div_pow,
    show (255 : Nat) = 2 ^ 8 - 1 from rfl, Nat.and_pow_two_sub_one_eq_mod,
    Nat.and_pow_two_sub_one_eq_mod, Nat.and_pow_two_sub_one_eq_mod]
  omega

/-- Reading back bytes 6..8 after `setACforBlock`'s splice returns exactly
the three bytes that were written. -/
theorem bytesRange_splice (t v : List Nat) (ht : 6 ≤ t.length) (hv : v.length = 3) :
    bytesRange (t.take 6 ++ (v ++ t.drop 9)) 6 3 = v := by
  simp only [bytesRange]
  have hlen : (t.take 6).length = 6 := by
    rw [List.length_take]
    omega
  rw [List.drop_left' hlen, List.take_left' hv]

/-- Decoding block `i` right after encoding access condition `ac` for
block `i` returns `ac`. -/
theorem getACnum_setACnum_same (c ac i : Nat) (hi : i < 4) (hac : ac < 8) :
    Sector.getACnum (Sector.setACnum c i ac) i = ac := by
  obtain ⟨b2, b1, b0⟩ := setACnum_testBit_new c ac i hi
  simp only [Sector.getACnum, shiftRight_and_one, b2, b1, b0]
  interval_cases ac <;> decide

/-- Decoding any other block is unchanged by encoding block `i`. -/
theorem getACnum_setACnum_other (c ac i j : Nat) (hi : i < 4) (hj : j < 4)
    (hne : j ≠ i) :
    Sector.getACnum (Sector.setACnum c i ac) j = Sector.getACnum c j := by
  have b2 := setACnum_testBit_preserved c ac i (12 + j) hi (by omega)
    (by omega) (by omega) (by omega) (by omega)
  have b1 := setACnum_testBit_preserved c ac i (0 + j) hi (by omega)
    (by omega) (by omega) (by omega) (by omega)
  have b0 := setACnum_testBit_preserved c ac i (4 + j) hi (by omega)
    (by omega) (by omega) (by omega) (by omega)
  simp only [Sector.getACnum, shiftRight_and_one, b2, b1, b0]

/-- If every bit of the nibble at `a` is the complement of the matching
bit of the nibble at `b`, the nibble values satisfy the XOR-15 law. -/
theorem nibble_compl_of_bits (x a b : Nat)
    (h : ∀ k, k < 4 → x.testBit (a + k) = !x.testBit (b + k)) :
    (x >>> a) &&& 15 = ((x >>> b) &&& 15) ^^^ 15 := by
  refine Nat.eq_of_testBit_eq fun p => ?_
  simp only [Nat.testBit_and, Nat.testBit_xor, Nat.testBit_shiftRight, testBit_c15]
  by_cases hp : p < 4
  · rw [h p hp]
    simp [hp]
  · simp [hp]

/-- Reading bytes 6..8 of the trailer written by `setACforBlock` gives
back exactly the encoded 24-bit field. -/
theorem trailerACField_setACforBlock (t : List Nat) (i v : Nat)
    (ht : t.length = 16) (hi : i ≤ 3) :
    trailerACField (Sector.setACforBlock t i v) =
      Sector.setACnum (toUnsigned (bytesRange t 6 3)) i v := by
  rw [trailerACField, Sector.setACforBlock,
    bytesRange_splice _ _ (by omega) (valueOf_length _ _),
    toUnsigned_valueOf3 _ (setACnum_lt _ _ _ (by omega))]

/-- C1: for every cached 16-byte trailer block, every access-condition
value `v` in 0..7 and block index `i` in 0..3, `setACforBlock i v`
followed by `getACforBlock i` returns `v`, and `getACforBlock j` for every
other block index `j` is unchanged by the call. -/
theorem setACforBlock_roundtrip_frame (t : List Nat) (i v : Nat)
    (ht : t.length = 16) (hi : i ≤ 3) (hv : v ≤ 7) :
    Sector.getACforBlock (Sector.setACforBlock t i v) i = v ∧
      ∀ j, j ≤ 3 → j ≠ i →
        Sector.getACforBlock (Sector.setACforBlock t i v) j =
          Sector.getACforBlock t j := by
  have he := trailerACField_setACforBlock t i v ht hi
  rw [trailerACField] at he
  constructor
  · rw [Sector.getACforBlock, he]
    exact getACnum_setACnum_same _ _ _ (by omega) (by omega)
  · intro j hj hne
    rw [Sector.getACforBlock, he, Sector.getACforBlock]
    exact getACnum_setACnum_other _ _ _ _ (by omega) (by omega) hne

theorem setACforBlock_roundtrip_frame_witness :
    Sector.getACforBlock
        (Sector.setACforBlock
          [0xFF, 0xFF, 0xFF, 0xFF, 0xFF, 0xFF, 0xFF, 0x07, 0x80, 0x69,
           0xFF, 0xFF, 0xFF, 0xFF, 0xFF, 0xFF] 2 5) 2 = 5 ∧
      ∀ j, j ≤ 3 → j ≠ 2 →
        Sector.getACforBlock
            (Sector.setACforBlock
              [0xFF, 0xFF, 0xFF, 0xFF, 0xFF, 0xFF, 0xFF, 0x07, 0x80, 0x69,
               0xFF, 0xFF, 0xFF, 0xFF, 0xFF, 0xFF] 2 5) j =
          Sector.getACforBlock
            [0xFF, 0xFF, 0xFF, 0xFF, 0xFF, 0xFF, 0xFF, 0x07, 0x80, 0x69,
             0xFF, 0xFF, 0xFF, 0xFF, 0xFF, 0xFF] j :=
  setACforBlock_roundtrip_frame _ 2 5 (by decide) (by decide) (by decide)

/-- C2: after any `setACforBlock` call on a cached 16-byte trailer, the
24-bit field in bytes 6..8 satisfies the Mifare redundancy law: each
complement nibble is the 4-bit bitwise complement of its real nibble
(bits 16..19 vs the C1 nibble at 12..15, bits 20..23 vs the C2 nibble at
0..3, bits 8..11 vs the C3 nibble at 4..7). -/
theorem setACforBlock_redundancy (t : List Nat) (i v : Nat)
    (ht : t.length = 16) (hi : i ≤ 3) (hv : v ≤ 7) :
    ((trailerACField (Sector.setACforBlock t i v) >>> 16) &&& 0xF =
        ((trailerACField (Sector.setACforBlock t i v) >>> 12) &&& 0xF) ^^^ 0xF) ∧
      ((trailerACField (Sector.setACforBlock t i v) >>> 20) &&& 0xF =
        (trailerACField (Sector.setACforBlock t i v) &&& 0xF) ^^^ 0xF) ∧
      ((trailerACField (Sector.setACforBlock t i v) >>> 8) &&& 0xF =
        ((trailerACField (Sector.setACforBlock t i v) >>> 4) &&& 0xF) ^^^ 0xF) := by
  rw [trailerACField_setACforBlock t i v ht hi]
  refine ⟨?_, ?_, ?_⟩
  · exact nibble_compl_of_bits _ 16 12 fun k hk =>
      (setACnum_testBit_compl _ _ _ k (by omega) hk).1
  · have h := nibble_compl_of_bits
      (Sector.setACnum (toUnsigned (bytesRange t 6 3)) i v) 20 0 fun k hk =>
      (setACnum_testBit_compl _ _ _ k (by omega) hk).2.1
    rwa [Nat.shiftRight_zero] at h
  · exact nibble_compl_of_bits _ 8 4 fun k hk =>
      (setACnum_testBit_compl _ _ _ k (by omega) hk).2.2

theorem setACforBlock_redundancy_witness :
    ((trailerACField (Sector.setACforBlock
          [0xFF, 0xFF, 0xFF, 0xFF, 0xFF, 0xFF, 0xFF, 0x07, 0x80, 0x69,
           0xFF, 0xFF, 0xFF, 0xFF, 0xFF, 0xFF] 1 3) >>> 16) &&& 0xF =
        ((trailerACField (Sector.setACforBlock
          [0xFF, 0xFF, 0xFF, 0xFF, 0xFF, 0xFF, 0xFF, 0x07, 0x80, 0x69,
           0xFF, 0xFF, 0xFF, 0xFF, 0xFF, 0xFF] 1 3) >>> 12) &&& 0xF) ^^^ 0xF) ∧
      ((trailerACField (Sector.setACforBlock
          [0xFF, 0xFF, 0xFF, 0xFF, 0xFF, 0xFF, 0xFF, 0x07, 0x80, 0x69,
           0xFF, 0xFF, 0xFF, 0xFF, 0xFF, 0xFF] 1 3) >>> 20) &&& 0xF =
        (trailerACField (Sector.setACforBlock
          [0xFF, 0xFF, 0xFF, 0xFF, 0xFF, 0xFF, 0xFF, 0x07, 0x80, 0x69,
           0xFF, 0xFF, 0xFF, 0xFF, 0xFF, 0xFF] 1 3) &&& 0xF) ^^^ 0xF) ∧
      ((trailerACField (Sector.setACforBlock
          [0xFF, 0xFF, 0xFF, 0xFF, 0xFF, 0xFF, 0xFF, 0x07, 0x80, 0x69,
           0xFF, 0xFF, 0xFF, 0xFF, 0xFF, 0xFF] 1 3) >>> 8) &&& 0xF =
        ((trailerACField (Sector.setACforBlock
          [0xFF, 0xFF, 0xFF, 0xFF, 0xFF, 0xFF, 0xFF, 0x07, 0x80, 0x69,
           0xFF, 0xFF, 0xFF, 0xFF, 0xFF, 0xFF] 1 3) >>> 4) &&& 0xF) ^^^ 0xF) :=
  setACforBlock_redundancy _ 1 3 (by decide) (by decide) (by decide)

/-- C3 counterexample: it is NOT true that ANDing a 24-bit field with
`Sector.MASK[i]` changes only the three bits owned by block `i`: at
`c = 0xFFFFFF`, `i = 0`, the mask also clears bit 8 (a complement-nibble
bit), which is none of 12+0, 0+0, 4+0. -/
theorem mask_changes_only_own_bits_false :
    ¬ (∀ c i, i ≤ 3 → ∀ p, p ≠ 12 + i → p ≠ 0 + i → p ≠ 4 + i →
        (c &&& Sector.MASK.getD i 0).testBit p = c.testBit p) := by
  intro h
  exact absurd (h 0xFFFFFF 0 (by omega) 8 (by omega) (by omega) (by omega))
    (by decide)

/-- C3 amended: ANDing a field with `Sector.MASK[i]` clears exactly block
`i`'s three bits (12+i, 0+i, 4+i) AND all three complement nibbles (bits
8..11 and 16..23), while preserving the other blocks' real control bits
(the remaining positions below 8 or in 12..15). -/
theorem mask_clears_own_and_complement_bits (c i : Nat) (hi : i ≤ 3) :
    (∀ p, p < 16 → (p < 8 ∨ 12 ≤ p) → p ≠ 12 + i → p ≠ 0 + i → p ≠ 4 + i →
        (c &&& Sector.MASK.getD i 0).testBit p = c.testBit p) ∧
      ((c &&& Sector.MASK.getD i 0).testBit (12 + i) = false) ∧
      ((c &&& Sector.MASK.getD i 0).testBit (0 + i) = false) ∧
      ((c &&& Sector.MASK.getD i 0).testBit (4 + i) = false) ∧
      (∀ p, (8 ≤ p ∧ p < 12) ∨ 16 ≤ p →
        (c &&& Sector.MASK.getD i 0).testBit p = false) := by
  refine ⟨?_, ?_, ?_, ?_, ?_⟩
  · intro p hp hmid h1 h2 h3
    interval_cases i <;> interval_cases p <;>
      first
      | omega
      | simp +decide only [show Sector.MASK.getD 0 0 = 57582 from rfl,
          show Sector.MASK.getD 1 0 = 53469 from rfl,
          show Sector.MASK.getD 2 0 = 45243 from rfl,
          show Sector.MASK.getD 3 0 = 28791 from rfl,
          Nat.testBit_and, testBit_c57582, testBit_c53469, testBit_c45243,
          testBit_c28791, decide_True, decide_False, Bool.and_true, Bool.and_false]
  · interval_cases i <;>
      simp +decide only [show Sector.MASK.getD 0 0 = 57582 from rfl,
        show Sector.MASK.getD 1 0 = 53469 from rfl,
        show Sector.MASK.getD 2 0 = 45243 from rfl,
        show Sector.MASK.getD 3 0 = 28791 from rfl,
        Nat.testBit_and, testBit_c57582, testBit_c53469, testBit_c45243,
        testBit_c28791, decide_True, decide_False, Bool.and_true, Bool.and_false]
  · interval_cases i <;>
      simp +decide only [show Sector.MASK.getD 0 0 = 57582 from rfl,
        show Sector.MASK.getD 1 0 = 53469 from rfl,
        show Sector.MASK.getD 2 0 = 45243 from rfl,
        show Sector.MASK.getD 3 0 = 28791 from rfl,
        Nat.testBit_and, testBit_c57582, testBit_c53469, testBit_c45243,
        testBit_c28791, decide_True, decide_False, Bool.and_true, Bool.and_false]
  · interval_cases i <;>
      simp +decide only [show Sector.MASK.getD 0 0 = 57582 from rfl,
        show Sector.MASK.getD 1 0 = 53469 from rfl,
        show Sector.MASK.getD 2 0 = 45243 from rfl,
        show Sector.MASK.getD 3 0 = 28791 from rfl,
        Nat.testBit_and, testBit_c57582, testBit_c53469, testBit_c45243,
        testBit_c28791, decide_True, decide_False, Bool.and_true, Bool.and_false]
  · intro p hp
    interval_cases i <;>
      simp only [show Sector.MASK.getD 0 0 = 57582 from rfl,
        show Sector.MASK.getD 1 0 = 53469 from rfl,
        show Sector.MASK.getD 2 0 = 45243 from rfl,
        show Sector.MASK.getD 3 0 = 28791 from rfl,
        Nat.testBit_and, testBit_c57582, testBit_c53469, testBit_c45243,
        testBit_c28791] <;>
      rw [decide_eq_false (by omega)] <;>
      exact Bool.and_false _

theorem mask_clears_own_and_complement_bits_witness :
    (∀ p, p < 16 → (p < 8 ∨ 12 ≤ p) → p ≠ 12 + 0 → p ≠ 0 + 0 → p ≠ 4 + 0 →
        (0xFFFFFF &&& Sector.MASK.getD 0 0).testBit p = (0xFFFFFF : Nat).testBit p) ∧
      ((0xFFFFFF &&& Sector.MASK.getD 0 0).testBit (12 + 0) = false) ∧
      ((0xFFFFFF &&& Sector.MASK.getD 0 0).testBit (0 + 0) = false) ∧
      ((0xFFFFFF &&& Sector.MASK.getD 0 0).testBit (4 + 0) = false) ∧
      (∀ p, (8 ≤ p ∧ p < 12) ∨ 16 ≤ p →
        (0xFFFFFF &&& Sector.MASK.getD 0 0).testBit p = false) :=
  mask_clears_own_and_complement_bits 0xFFFFFF 0 (by decide)

/-- The source's round (`msb`-test on `crc &&& 0x80`) coincides with the
specification's round (test of bit 7). -/
theorem crc8Step_eq_specRound (x : Nat) : Mifare.crc8Step x = crc8SpecRound x := by
  have h128 : x &&& 128 = (x.testBit 7).toNat * 128 := by
    rw [show (128 : Nat) = 2 ^ 7 from rfl, Nat.and_two_pow]
  simp only [Mifare.crc8Step, crc8SpecRound, h128]
  cases h : x.testBit 7 <;> simp

theorem foldl_range8_eq_rounds (x : Nat) :
    (List.range 8).foldl (fun c _ => Mifare.crc8Step c) x = crc8SpecRounds 8 x := by
  rw [show List.range 8 = [0, 1, 2, 3, 4, 5, 6, 7] from rfl]
  simp only [List.foldl_cons, List.foldl_nil, crc8Step_eq_specRound, crc8SpecRounds]

theorem crc8_foldl_go (d : List Nat) : ∀ crc : Nat,
    d.foldl
        (fun crc byte =>
          (List.range 8).foldl (fun c _ => Mifare.crc8Step c) (crc ^^^ byte)) crc =
      crc8SpecGo crc d := by
  induction d with
  | nil => intro crc; rfl
  | cons b rest ih =>
    intro crc
    rw [List.foldl_cons, ih, crc8SpecGo, foldl_range8_eq_rounds]

theorem crc8_eq_spec (d : List Nat) : Mifare.crc8 d = crc8Spec d :=
  crc8_foldl_go d 0xC7

theorem crc8SpecRound_lt (x : Nat) : crc8SpecRound x < 256 := by
  simp only [crc8SpecRound]
  have h1 : (x <<< 1) &&& 0xFF < 2 ^ 8 := Nat.and_lt_two_pow _ (by norm_num)
  have h2 : ((x <<< 1) &&& 0xFF) ^^^ 0x1D < 2 ^ 8 := Nat.xor_lt_two_pow h1 (by norm_num)
  by_cases h : x.testBit 7
  · rw [if_pos h]
    omega
  · rw [if_neg h]
    omega

theorem crc8SpecRounds_lt : ∀ n x : Nat, 0 < n → crc8SpecRounds n x < 256 := by
  intro n
  induction n with
  | zero => omega
  | succ m ih =>
    intro x _
    rw [crc8SpecRounds]
    rcases Nat.eq_zero_or_pos m with hm | hm
    · subst hm
      rw [crc8SpecRounds]
      exact crc8SpecRound_lt x
    · exact ih _ hm

theorem crc8_lt (d : List Nat) : Mifare.crc8 d < 256 := by
  rcases List.eq_nil_or_concat d with h | ⟨L, b, h⟩
  · subst h
    decide
  · subst h
    rw [show L.concat b = L ++ [b] from List.concat_eq_append L b]
    rw [Mifare.crc8, List.foldl_append, List.foldl_cons, List.foldl_nil,
      foldl_range8_eq_rounds]
    exact crc8SpecRounds_lt 8 _ (by omega)

set_option maxRecDepth 8192 in
/-- C4: `Mifare.crc8` implements the specified algorithm (it agrees with
the word-for-word spec recursion `crc8Spec` on every input), always
returns a value in 0..255, and maps the 31-byte reference vector to
0x89. -/
theorem crc8_correct :
    (∀ d : List Nat, Mifare.crc8 d = crc8Spec d) ∧
      (∀ d : List Nat, Mifare.crc8 d < 256) ∧
      crc8RefVector.length = 31 ∧ Mifare.crc8 crc8RefVector = 0x89 :=
  ⟨crc8_eq_spec, crc8_lt, by decide, by decide⟩

/-- C7: for every key id and 6-byte key, `loadKey` sends exactly the APDU
`loadKeyApdu keyid key` and fails hard unless its status word is 0x9000;
the preset-slot variant (P1 = 0x00) is chosen if and only if the key id is
0x60 or 0x61, the standard variant (P1 = 0x20) otherwise, with the key id
as P2 in both. -/
theorem loadKey_variant (card : Card) (s : MifareSt) (keyid : Nat)
    (key : List Nat) (hk : key.length = 6) :
    Mifare.loadKey card s keyid key =
      (if card.sw s.trace (Mifare.loadKeyApdu keyid key) = 0x9000
        then Except.ok
          ⟨s.trace ++ [Mifare.loadKeyApdu keyid key],
            card.sw s.trace (Mifare.loadKeyApdu keyid key)⟩
        else Except.error ()) ∧
      ((Mifare.loadKeyApdu keyid key).p1 = 0x00 ↔ (keyid = 0x60 ∨ keyid = 0x61)) ∧
      ((Mifare.loadKeyApdu keyid key).p1 = 0x20 ↔ ¬(keyid = 0x60 ∨ keyid = 0x61)) ∧
      (Mifare.loadKeyApdu keyid key).p2 = keyid ∧
      (Mifare.loadKeyApdu keyid key).ins = 0x82 ∧
      (Mifare.loadKeyApdu keyid key).data = key := by
  refine ⟨?_, ?_, ?_, ?_, ?_, ?_⟩
  · by_cases h : keyid = 0x60 ∨ keyid = 0x61 <;>
      by_cases hsw : card.sw s.trace (Mifare.loadKeyApdu keyid key) = 0x9000 <;>
      simp_all [Mifare.loadKey, Mifare.loadKeyApdu, sendApdu, Except.map]
  · by_cases h : keyid = 0x60 ∨ keyid = 0x61 <;> simp [Mifare.loadKeyApdu, h]
  · by_cases h : keyid = 0x60 ∨ keyid = 0x61 <;> simp [Mifare.loadKeyApdu, h]
  · by_cases h : keyid = 0x60 ∨ keyid = 0x61 <;> simp [Mifare.loadKeyApdu, h]
  · by_cases h : keyid = 0x60 ∨ keyid = 0x61 <;> simp [Mifare.loadKeyApdu, h]
  · by_cases h : keyid = 0x60 ∨ keyid = 0x61 <;> simp [Mifare.loadKeyApdu, h]

theorem loadKey_variant_witness :
    (Mifare.loadKey ⟨fun _ _ => 0x9000, fun _ _ => []⟩ ⟨[], 0⟩ 0x05
        [1, 2, 3, 4, 5, 6] =
      (if (⟨fun _ _ => 0x9000, fun _ _ => []⟩ : Card).sw []
          (Mifare.loadKeyApdu 0x05 [1, 2, 3, 4, 5, 6]) = 0x9000
        then Except.ok
          ⟨[] ++ [Mifare.loadKeyApdu 0x05 [1, 2, 3, 4, 5, 6]],
            (⟨fun _ _ => 0x9000, fun _ _ => []⟩ : Card).sw []
              (Mifare.loadKeyApdu 0x05 [1, 2, 3, 4, 5, 6])⟩
        else Except.error ())) ∧
      ((Mifare.loadKeyApdu 0x05 [1, 2, 3, 4, 5, 6]).p1 = 0x00 ↔
        (0x05 = 0x60 ∨ 0x05 = 0x61)) ∧
      ((Mifare.loadKeyApdu 0x05 [1, 2, 3, 4, 5, 6]).p1 = 0x20 ↔
        ¬(0x05 = 0x60 ∨ 0x05 = 0x61)) ∧
      (Mifare.loadKeyApdu 0x05 [1, 2, 3, 4, 5, 6]).p2 = 0x05 ∧
      (Mifare.loadKeyApdu 0x05 [1, 2, 3, 4, 5, 6]).ins = 0x82 ∧
      (Mifare.loadKeyApdu 0x05 [1, 2, 3, 4, 5, 6]).data = [1, 2, 3, 4, 5, 6] :=
  loadKey_variant ⟨fun _ _ => 0x9000, fun _ _ => []⟩ ⟨[], 0⟩ 0x05
    [1, 2, 3, 4, 5, 6] (by decide)

/-- C8: `authenticate` sends exactly one General Authenticate APDU whose
5-byte payload is version 0x01, the 2-byte big-endian block address, the
key type, and an id byte equal to the key id unless the key id is 0x60 or
0x61 (then 0x01); it returns true if and only if the status word is
0x9000, and never fails hard (it is a total function returning the
boolean and the new state). -/
theorem authenticate_payload_and_status (card : Card) (s : MifareSt)
    (block keytype keyid : Nat) :
    Mifare.authenticate card s block keytype keyid =
      (decide (card.sw s.trace (Mifare.authApdu block keytype keyid) = 0x9000),
        ⟨s.trace ++ [Mifare.authApdu block keytype keyid],
          card.sw s.trace (Mifare.authApdu block keytype keyid)⟩) ∧
      Mifare.authPayload block keytype keyid =
        [0x01, (block >>> 8) &&& 0xFF, block &&& 0xFF, keytype,
          if keyid ≠ 0x60 ∧ keyid ≠ 0x61 then keyid else 0x01] ∧
      (Mifare.authPayload block keytype keyid).length = 5 ∧
      (Mifare.authApdu block keytype keyid).ins = 0x86 := by
  refine ⟨?_, ?_, ?_, ?_⟩
  · simp [Mifare.authenticate, sendApdu]
  · simp [Mifare.authPayload, valueOf, List.range_succ, Nat.shiftRight_zero]
  · simp [Mifare.authPayload, valueOf]
  · rfl

/-- Evaluation of one `Mifare.authenticate` call: it appends exactly one
General Authenticate APDU and reports whether its status word is 0x9000. -/
theorem authenticate_run (card : Card) (s : MifareSt) (block keytype keyid : Nat) :
    Mifare.authenticate card s block keytype keyid =
      (decide (card.sw s.trace (Mifare.authApdu block keytype keyid) = 0x9000),
        ⟨s.trace ++ [Mifare.authApdu block keytype keyid],
          card.sw s.trace (Mifare.authApdu block keytype keyid)⟩) := by
  simp [Mifare.authenticate, sendApdu]

/-- Evaluation of one `Mifare.loadKey` call with a 6-byte key. -/
theorem loadKey_run (card : Card) (s : MifareSt) (keyid : Nat) (key : List Nat)
    (hk : key.length = 6) :
    Mifare.loadKey card s keyid key =
      (if card.sw s.trace (Mifare.loadKeyApdu keyid key) = 0x9000
        then Except.ok
          ⟨s.trace ++ [Mifare.loadKeyApdu keyid key],
            card.sw s.trace (Mifare.loadKeyApdu keyid key)⟩
        else Except.error ()) := by
  by_cases h : keyid = 0x60 ∨ keyid = 0x61 <;>
    by_cases hsw : card.sw s.trace (Mifare.loadKeyApdu keyid key) = 0x9000 <;>
    simp_all [Mifare.loadKey, Mifare.loadKeyApdu, sendApdu, Except.map]

/-- Evaluation of one `Sector.read` call whose Read Binary command is
accepted. -/
theorem read_run (card : Card) (sec : Sector) (s : MifareSt) (block : Nat)
    (hb : block ≤ 3)
    (h : card.sw s.trace (Mifare.readBlockApdu ((sec.no <<< 2) + block)) = 0x9000) :
    Sector.read card sec s block =
      Except.ok
        (card.resp s.trace (Mifare.readBlockApdu ((sec.no <<< 2) + block)),
          { sec with
            blocks := Function.update sec.blocks block
              (some (card.resp s.trace
                (Mifare.readBlockApdu ((sec.no <<< 2) + block)))) },
          ⟨s.trace ++ [Mifare.readBlockApdu ((sec.no <<< 2) + block)], 0x9000⟩) := by
  simp [Sector.read, Mifare.readBlock, sendApdu, hb, h]

/-- Run of `Sector.readAll` when the four Read Binary commands are
accepted (the authentication status word is arbitrary). -/
theorem readAll_run (card : Card) (sec : Sector) (s : MifareSt)
    (keytype : Option Nat)
    (h0 : card.sw (s.trace ++ [readAllAuthApdu sec keytype])
      (Mifare.readBlockApdu ((sec.no <<< 2) + 0)) = 0x9000)
    (h1 : card.sw (s.trace ++
        [readAllAuthApdu sec keytype, Mifare.readBlockApdu ((sec.no <<< 2) + 0)])
      (Mifare.readBlockApdu ((sec.no <<< 2) + 1)) = 0x9000)
    (h2 : card.sw (s.trace ++
        [readAllAuthApdu sec keytype, Mifare.readBlockApdu ((sec.no <<< 2) + 0),
          Mifare.readBlockApdu ((sec.no <<< 2) + 1)])
      (Mifare.readBlockApdu ((sec.no <<< 2) + 2)) = 0x9000)
    (h3 : card.sw (s.trace ++
        [readAllAuthApdu sec keytype, Mifare.readBlockApdu ((sec.no <<< 2) + 0),
          Mifare.readBlockApdu ((sec.no <<< 2) + 1),
          Mifare.readBlockApdu ((sec.no <<< 2) + 2)])
      (Mifare.readBlockApdu ((sec.no <<< 2) + 3)) = 0x9000) :
    Sector.readAll card sec s keytype =
      Except.ok
        (((card.resp (s.trace ++ [readAllAuthApdu sec keytype])
              (Mifare.readBlockApdu ((sec.no <<< 2) + 0)) ++
            card.resp (s.trace ++
                [readAllAuthApdu sec keytype,
                  Mifare.readBlockApdu ((sec.no <<< 2) + 0)])
              (Mifare.readBlockApdu ((sec.no <<< 2) + 1))) ++
            card.resp (s.trace ++
                [readAllAuthApdu sec keytype,
                  Mifare.readBlockApdu ((sec.no <<< 2) + 0),
                  Mifare.readBlockApdu ((sec.no <<< 2) + 1)])
              (Mifare.readBlockApdu ((sec.no <<< 2) + 2))) ++
            card.resp (s.trace ++
                [readAllAuthApdu sec keytype,
                  Mifare.readBlockApdu ((sec.no <<< 2) + 0),
                  Mifare.readBlockApdu ((sec.no <<< 2) + 1),
                  Mifare.readBlockApdu ((sec.no <<< 2) + 2)])
              (Mifare.readBlockApdu ((sec.no <<< 2) + 3)),
          { sec with
            blocks :=
              Function.update
                (Function.update
                  (Function.update
                    (Function.update sec.blocks 0
                      (some (card.resp (s.trace ++ [readAllAuthApdu sec keytype])
                        (Mifare.readBlockApdu ((sec.no <<< 2) + 0)))))
                    1
                    (some (card.resp (s.trace ++
                        [readAllAuthApdu sec keytype,
                          Mifare.readBlockApdu ((sec.no <<< 2) + 0)])
                      (Mifare.readBlockApdu ((sec.no <<< 2) + 1)))))
                  2
                  (some (card.resp (s.trace ++
                      [readAllAuthApdu sec keytype,
                        Mifare.readBlockApdu ((sec.no <<< 2) + 0),
                        Mifare.readBlockApdu ((sec.no <<< 2) + 1)])
                    (Mifare.readBlockApdu ((sec.no <<< 2) + 2)))))
                3
                (some (card.resp (s.trace ++
                    [readAllAuthApdu sec keytype,
                      Mifare.readBlockApdu ((sec.no <<< 2) + 0),
                      Mifare.readBlockApdu ((sec.no <<< 2) + 1),
                      Mifare.readBlockApdu ((sec.no <<< 2) + 2)])
                  (Mifare.readBlockApdu ((sec.no <<< 2) + 3)))) },
          ⟨s.trace ++ readAllCmds sec keytype, 0x9000⟩) := by
  simp [readAllAuthApdu] at h0 h1 h2 h3
  simp [Sector.readAll, Sector.read, Sector.authenticate, Mifare.readBlock,
    Mifare.authenticate, sendApdu, readAllCmds, readAllAuthApdu] at h0 h1 h2 h3 ⊢ <;>
    simp [h0, h1, h2, h3, Bind.bind, Except.bind, Functor.map, Except.map]

/-- C6: for every sector and key type (defaulting to Key A when omitted),
`readAll` issues exactly one authentication command — against absolute
block `sector*4 + 0`, using this sector's key id for the key type —
followed by exactly four block reads at offsets 0, 1, 2, 3 in that order
with no authentication between the reads (the command trace grows by
exactly `readAllCmds`), and returns the concatenation of the four blocks
in that order. -/
theorem readAll_one_auth_four_reads (card : Card) (sec : Sector) (s : MifareSt)
    (keytype : Option Nat)
    (h0 : card.sw (s.trace ++ [readAllAuthApdu sec keytype])
      (Mifare.readBlockApdu ((sec.no <<< 2) + 0)) = 0x9000)
    (h1 : card.sw (s.trace ++
        [readAllAuthApdu sec keytype, Mifare.readBlockApdu ((sec.no <<< 2) + 0)])
      (Mifare.readBlockApdu ((sec.no <<< 2) + 1)) = 0x9000)
    (h2 : card.sw (s.trace ++
        [readAllAuthApdu sec keytype, Mifare.readBlockApdu ((sec.no <<< 2) + 0),
          Mifare.readBlockApdu ((sec.no <<< 2) + 1)])
      (Mifare.readBlockApdu ((sec.no <<< 2) + 2)) = 0x9000)
    (h3 : card.sw (s.trace ++
        [readAllAuthApdu sec keytype, Mifare.readBlockApdu ((sec.no <<< 2) + 0),
          Mifare.readBlockApdu ((sec.no <<< 2) + 1),
          Mifare.readBlockApdu ((sec.no <<< 2) + 2)])
      (Mifare.readBlockApdu ((sec.no <<< 2) + 3)) = 0x9000) :
    (∃ sec', Sector.readAll card sec s keytype =
      Except.ok
        (((card.resp (s.trace ++ [readAllAuthApdu sec keytype])
              (Mifare.readBlockApdu ((sec.no <<< 2) + 0)) ++
            card.resp (s.trace ++
                [readAllAuthApdu sec keytype,
                  Mifare.readBlockApdu ((sec.no <<< 2) + 0)])
              (Mifare.readBlockApdu ((sec.no <<< 2) + 1))) ++
            card.resp (s.trace ++
                [readAllAuthApdu sec keytype,
                  Mifare.readBlockApdu ((sec.no <<< 2) + 0),
                  Mifare.readBlockApdu ((sec.no <<< 2) + 1)])
              (Mifare.readBlockApdu ((sec.no <<< 2) + 2))) ++
            card.resp (s.trace ++
                [readAllAuthApdu sec keytype,
                  Mifare.readBlockApdu ((sec.no <<< 2) + 0),
                  Mifare.readBlockApdu ((sec.no <<< 2) + 1),
                  Mifare.readBlockApdu ((sec.no <<< 2) + 2)])
              (Mifare.readBlockApdu ((sec.no <<< 2) + 3)),
          sec',
          ⟨s.trace ++ readAllCmds sec keytype, 0x9000⟩)) ∧
      readAllCmds sec keytype =
        [Mifare.authApdu ((sec.no <<< 2) + 0) (keytype.getD Mifare.KEY_A)
            (sec.keyid.getD (keytype.getD Mifare.KEY_A - Mifare.KEY_A) 0),
          Mifare.readBlockApdu ((sec.no <<< 2) + 0),
          Mifare.readBlockApdu ((sec.no <<< 2) + 1),
          Mifare.readBlockApdu ((sec.no <<< 2) + 2),
          Mifare.readBlockApdu ((sec.no <<< 2) + 3)] ∧
      ((readAllCmds sec keytype).filter (fun a => a.ins == 0x86)).length = 1 ∧
      ((readAllCmds sec keytype).filter (fun a => a.ins == 0xB0)).length = 4 := by
  refine ⟨⟨_, readAll_run card sec s keytype h0 h1 h2 h3⟩, ?_, ?_, ?_⟩
  · rfl
  · simp +decide [readAllCmds, readAllAuthApdu, Mifare.authApdu,
      Mifare.readBlockApdu, List.filter]
  · simp +decide [readAllCmds, readAllAuthApdu, Mifare.authApdu,
      Mifare.readBlockApdu, List.filter]

theorem readAll_one_auth_four_reads_witness :
    (∃ sec', Sector.readAll cardAccepts sector0 st0 none =
      Except.ok
        (((cardAccepts.resp (st0.trace ++ [readAllAuthApdu sector0 none])
              (Mifare.readBlockApdu ((sector0.no <<< 2) + 0)) ++
            cardAccepts.resp (st0.trace ++
                [readAllAuthApdu sector0 none,
                  Mifare.readBlockApdu ((sector0.no <<< 2) + 0)])
              (Mifare.readBlockApdu ((sector0.no <<< 2) + 1))) ++
            cardAccepts.resp (st0.trace ++
                [readAllAuthApdu sector0 none,
                  Mifare.readBlockApdu ((sector0.no <<< 2) + 0),
                  Mifare.readBlockApdu ((sector0.no <<< 2) + 1)])
              (Mifare.readBlockApdu ((sector0.no <<< 2) + 2))) ++
            cardAccepts.resp (st0.trace ++
                [readAllAuthApdu sector0 none,
                  Mifare.readBlockApdu ((sector0.no <<< 2) + 0),
                  Mifare.readBlockApdu ((sector0.no <<< 2) + 1),
                  Mifare.readBlockApdu ((sector0.no <<< 2) + 2)])
              (Mifare.readBlockApdu ((sector0.no <<< 2) + 3)),
          sec',
          ⟨st0.trace ++ readAllCmds sector0 none, 0x9000⟩)) ∧
      readAllCmds sector0 none =
        [Mifare.authApdu ((sector0.no <<< 2) + 0) ((none : Option Nat).getD Mifare.KEY_A)
            (sector0.keyid.getD ((none : Option Nat).getD Mifare.KEY_A - Mifare.KEY_A) 0),
          Mifare.readBlockApdu ((sector0.no <<< 2) + 0),
          Mifare.readBlockApdu ((sector0.no <<< 2) + 1),
          Mifare.readBlockApdu ((sector0.no <<< 2) + 2),
          Mifare.readBlockApdu ((sector0.no <<< 2) + 3)] ∧
      ((readAllCmds sector0 none).filter (fun a => a.ins == 0x86)).length = 1 ∧
      ((readAllCmds sector0 none).filter (fun a => a.ins == 0xB0)).length = 4 :=
  readAll_one_auth_four_reads cardAccepts sector0 st0 none rfl rfl rfl rfl

/-- C10: `readAll` never inspects the boolean result of its single
authentication call: when the card rejects the authentication (status
word not 0x9000, so the call returns false), `readAll` still issues all
four block reads and returns their concatenation instead of aborting. -/
theorem readAll_ignores_failed_auth (card : Card) (sec : Sector) (s : MifareSt)
    (keytype : Option Nat)
    (hbad : card.sw s.trace (readAllAuthApdu sec keytype) ≠ 0x9000)
    (h0 : card.sw (s.trace ++ [readAllAuthApdu sec keytype])
      (Mifare.readBlockApdu ((sec.no <<< 2) + 0)) = 0x9000)
    (h1 : card.sw (s.trace ++
        [readAllAuthApdu sec keytype, Mifare.readBlockApdu ((sec.no <<< 2) + 0)])
      (Mifare.readBlockApdu ((sec.no <<< 2) + 1)) = 0x9000)
    (h2 : card.sw (s.trace ++
        [readAllAuthApdu sec keytype, Mifare.readBlockApdu ((sec.no <<< 2) + 0),
          Mifare.readBlockApdu ((sec.no <<< 2) + 1)])
      (Mifare.readBlockApdu ((sec.no <<< 2) + 2)) = 0x9000)
    (h3 : card.sw (s.trace ++
        [readAllAuthApdu sec keytype, Mifare.readBlockApdu ((sec.no <<< 2) + 0),
          Mifare.readBlockApdu ((sec.no <<< 2) + 1),
          Mifare.readBlockApdu ((sec.no <<< 2) + 2)])
      (Mifare.readBlockApdu ((sec.no <<< 2) + 3)) = 0x9000) :
    (Sector.authenticate card sec s 0 (keytype.getD Mifare.KEY_A)).1 = false ∧
      ∃ sec', Sector.readAll card sec s keytype =
        Except.ok
          (((card.resp (s.trace ++ [readAllAuthApdu sec keytype])
                (Mifare.readBlockApdu ((sec.no <<< 2) + 0)) ++
              card.resp (s.trace ++
                  [readAllAuthApdu sec keytype,
                    Mifare.readBlockApdu ((sec.no <<< 2) + 0)])
                (Mifare.readBlockApdu ((sec.no <<< 2) + 1))) ++
              card.resp (s.trace ++
                  [readAllAuthApdu sec keytype,
                    Mifare.readBlockApdu ((sec.no <<< 2) + 0),
                    Mifare.readBlockApdu ((sec.no <<< 2) + 1)])
                (Mifare.readBlockApdu ((sec.no <<< 2) + 2))) ++
              card.resp (s.trace ++
                  [readAllAuthApdu sec keytype,
                    Mifare.readBlockApdu ((sec.no <<< 2) + 0),
                    Mifare.readBlockApdu ((sec.no <<< 2) + 1),
                    Mifare.readBlockApdu ((sec.no <<< 2) + 2)])
                (Mifare.readBlockApdu ((sec.no <<< 2) + 3)),
            sec',
            ⟨s.trace ++ readAllCmds sec keytype, 0x9000⟩) := by
  constructor
  · rw [Sector.authenticate, authenticate_run]
    simp [readAllAuthApdu] at hbad
    simp [hbad]
  · exact ⟨_, readAll_run card sec s keytype h0 h1 h2 h3⟩

theorem readAll_ignores_failed_auth_witness :
    (Sector.authenticate cardAuthFail sector0 st0 0
        ((none : Option Nat).getD Mifare.KEY_A)).1 = false ∧
      ∃ sec', Sector.readAll cardAuthFail sector0 st0 none =
        Except.ok
          (((cardAuthFail.resp (st0.trace ++ [readAllAuthApdu sector0 none])
                (Mifare.readBlockApdu ((sector0.no <<< 2) + 0)) ++
              cardAuthFail.resp (st0.trace ++
                  [readAllAuthApdu sector0 none,
                    Mifare.readBlockApdu ((sector0.no <<< 2) + 0)])
                (Mifare.readBlockApdu ((sector0.no <<< 2) + 1))) ++
              cardAuthFail.resp (st0.trace ++
                  [readAllAuthApdu sector0 none,
                    Mifare.readBlockApdu ((sector0.no <<< 2) + 0),
                    Mifare.readBlockApdu ((sector0.no <<< 2) + 1)])
                (Mifare.readBlockApdu ((sector0.no <<< 2) + 2))) ++
              cardAuthFail.resp (st0.trace ++
                  [readAllAuthApdu sector0 none,
                    Mifare.readBlockApdu ((sector0.no <<< 2) + 0),
                    Mifare.readBlockApdu ((sector0.no <<< 2) + 1),
                    Mifare.readBlockApdu ((sector0.no <<< 2) + 2)])
                (Mifare.readBlockApdu ((sector0.no <<< 2) + 3)),
            sec',
            ⟨st0.trace ++ readAllCmds sector0 none, 0x9000⟩) :=
  readAll_ignores_failed_auth cardAuthFail sector0 st0 none (by decide)
    (by decide) (by decide) (by decide) (by decide)

/-- C9: on a cached 16-byte trailer block, `setKeyA` with a 6-byte key
overwrites exactly bytes 0-5 (bytes 6-15 unchanged), `setKeyB` with a
6-byte key overwrites exactly bytes 10-15 (bytes 0-9 unchanged), and
`setHeaderDataByte` with a 1-byte value overwrites exactly byte 9 (bytes
0-8 and 10-15 unchanged); in all three cases the trailer remains 16 bytes
long. -/
theorem keyHelpers_frame (t key db : List Nat) (ht : t.length = 16)
    (hk : key.length = 6) (hdb : db.length = 1) :
    ((Sector.setKeyA t key).length = 16 ∧
      (Sector.setKeyA t key).take 6 = key ∧
      (Sector.setKeyA t key).drop 6 = t.drop 6) ∧
    ((Sector.setKeyB t key).length = 16 ∧
      (Sector.setKeyB t key).take 10 = t.take 10 ∧
      (Sector.setKeyB t key).drop 10 = key) ∧
    ((Sector.setHeaderDataByte t db).length = 16 ∧
      (Sector.setHeaderDataByte t db).take 9 = t.take 9 ∧
      bytesRange (Sector.setHeaderDataByte t db) 9 1 = db ∧
      (Sector.setHeaderDataByte t db).drop 10 = t.drop 10) := by
  have htake10 : (t.take 10).length = 10 := by
    rw [List.length_take]
    omega
  have htake9 : (t.take 9).length = 9 := by
    rw [List.length_take]
    omega
  refine ⟨⟨?_, ?_, ?_⟩, ⟨?_, ?_, ?_⟩, ⟨?_, ?_, ?_, ?_⟩⟩
  · simp [Sector.setKeyA, ht, hk]
  · rw [Sector.setKeyA, List.take_left' hk]
  · rw [Sector.setKeyA, List.drop_left' hk]
  · simp [Sector.setKeyB, htake10, hk]
  · rw [Sector.setKeyB, List.take_left' htake10]
  · rw [Sector.setKeyB, List.drop_left' htake10]
  · simp [Sector.setHeaderDataByte, htake9, hdb, ht]
  · rw [Sector.setHeaderDataByte, List.append_assoc, List.take_left' htake9]
  · rw [bytesRange, Sector.setHeaderDataByte, List.append_assoc,
      List.drop_left' htake9, List.take_left' hdb]
  · rw [Sector.setHeaderDataByte, List.append_assoc,
      show (10 : Nat) = 9 + 1 from rfl, ← List.drop_drop,
      List.drop_left' htake9, List.drop_left' hdb]

theorem keyHelpers_frame_witness :
    ((Sector.setKeyA
        [0xFF, 0xFF, 0xFF, 0xFF, 0xFF, 0xFF, 0xFF, 0x07, 0x80, 0x69,
         0xFF, 0xFF, 0xFF, 0xFF, 0xFF, 0xFF] [1, 2, 3, 4, 5, 6]).length = 16 ∧
      (Sector.setKeyA
        [0xFF, 0xFF, 0xFF, 0xFF, 0xFF, 0xFF, 0xFF, 0x07, 0x80, 0x69,
         0xFF, 0xFF, 0xFF, 0xFF, 0xFF, 0xFF] [1, 2, 3, 4, 5, 6]).take 6 =
        [1, 2, 3, 4, 5, 6] ∧
      (Sector.setKeyA
        [0xFF, 0xFF, 0xFF, 0xFF, 0xFF, 0xFF, 0xFF, 0x07, 0x80, 0x69,
         0xFF, 0xFF, 0xFF, 0xFF, 0xFF, 0xFF] [1, 2, 3, 4, 5, 6]).drop 6 =
        ([0xFF, 0xFF, 0xFF, 0xFF, 0xFF, 0xFF, 0xFF, 0x07, 0x80, 0x69,
          0xFF, 0xFF, 0xFF, 0xFF, 0xFF, 0xFF] : List Nat).drop 6) ∧
    ((Sector.setKeyB
        [0xFF, 0xFF, 0xFF, 0xFF, 0xFF, 0xFF, 0xFF, 0x07, 0x80, 0x69,
         0xFF, 0xFF, 0xFF, 0xFF, 0xFF, 0xFF] [1, 2, 3, 4, 5, 6]).length = 16 ∧
      (Sector.setKeyB
        [0xFF, 0xFF, 0xFF, 0xFF, 0xFF, 0xFF, 0xFF, 0x07, 0x80, 0x69,
         0xFF, 0xFF, 0xFF, 0xFF, 0xFF, 0xFF] [1, 2, 3, 4, 5, 6]).take 10 =
        ([0xFF, 0xFF, 0xFF, 0xFF, 0xFF, 0xFF, 0xFF, 0x07, 0x80, 0x69,
          0xFF, 0xFF, 0xFF, 0xFF, 0xFF, 0xFF] : List Nat).take 10 ∧
      (Sector.setKeyB
        [0xFF, 0xFF, 0xFF, 0xFF, 0xFF, 0xFF, 0xFF, 0x07, 0x80, 0x69,
         0xFF, 0xFF, 0xFF, 0xFF, 0xFF, 0xFF] [1, 2, 3, 4, 5, 6]).drop 10 =
        [1, 2, 3, 4, 5, 6]) ∧
    ((Sector.setHeaderDataByte
        [0xFF, 0xFF, 0xFF, 0xFF, 0xFF, 0xFF, 0xFF, 0x07, 0x80, 0x69,
         0xFF, 0xFF, 0xFF, 0xFF, 0xFF, 0xFF] [0x42]).length = 16 ∧
      (Sector.setHeaderDataByte
        [0xFF, 0xFF, 0xFF, 0xFF, 0xFF, 0xFF, 0xFF, 0x07, 0x80, 0x69,
         0xFF, 0xFF, 0xFF, 0xFF, 0xFF, 0xFF] [0x42]).take 9 =
        ([0xFF, 0xFF, 0xFF, 0xFF, 0xFF, 0xFF, 0xFF, 0x07, 0x80, 0x69,
          0xFF, 0xFF, 0xFF, 0xFF, 0xFF, 0xFF] : List Nat).take 9 ∧
      bytesRange (Sector.setHeaderDataByte
        [0xFF, 0xFF, 0xFF, 0xFF, 0xFF, 0xFF, 0xFF, 0x07, 0x80, 0x69,
         0xFF, 0xFF, 0xFF, 0xFF, 0xFF, 0xFF] [0x42]) 9 1 = [0x42] ∧
      (Sector.setHeaderDataByte
        [0xFF, 0xFF, 0xFF, 0xFF, 0xFF, 0xFF, 0xFF, 0x07, 0x80, 0x69,
         0xFF, 0xFF, 0xFF, 0xFF, 0xFF, 0xFF] [0x42]).drop 10 =
        ([0xFF, 0xFF, 0xFF, 0xFF, 0xFF, 0xFF, 0xFF, 0x07, 0x80, 0x69,
          0xFF, 0xFF, 0xFF, 0xFF, 0xFF, 0xFF] : List Nat).drop 10) :=
  keyHelpers_frame _ _ _ (by decide) (by decide) (by decide)

/-- Closed-form evaluation of `authenticatePublic` when every Load Key
command is accepted: a cascade over the four probes. -/
theorem authPublic_eval (card : Card) (sec : Sector) (s : MifareSt)
    (block keytype kid blockAbs : Nat)
    (hkid : sec.keyid.getD (keytype - Mifare.KEY_A) 0 = kid)
    (hblock : (sec.no <<< 2) + block = blockAbs)
    (hload : ∀ (tr : List Apdu) (k : List Nat),
      card.sw tr (Mifare.loadKeyApdu kid k) = 0x9000) :
    Sector.authenticatePublic card sec s block keytype =
      (if probeOk card s.trace kid blockAbs keytype 0 = true then
        Except.ok ((0 : Int),
          ⟨s.trace ++ probeTrace kid blockAbs keytype 1,
            card.sw (s.trace ++ probeTrace kid blockAbs keytype 0 ++
                [Mifare.loadKeyApdu kid (Mifare.PUBLICKEYS.getD 0 [])])
              (Mifare.authApdu blockAbs keytype kid)⟩)
      else if probeOk card s.trace kid blockAbs keytype 1 = true then
        Except.ok ((1 : Int),
          ⟨s.trace ++ probeTrace kid blockAbs keytype 2,
            card.sw (s.trace ++ probeTrace kid blockAbs keytype 1 ++
                [Mifare.loadKeyApdu kid (Mifare.PUBLICKEYS.getD 1 [])])
              (Mifare.authApdu blockAbs keytype kid)⟩)
      else if probeOk card s.trace kid blockAbs keytype 2 = true then
        Except.ok ((2 : Int),
          ⟨s.trace ++ probeTrace kid blockAbs keytype 3,
            card.sw (s.trace ++ probeTrace kid blockAbs keytype 2 ++
                [Mifare.loadKeyApdu kid (Mifare.PUBLICKEYS.getD 2 [])])
              (Mifare.authApdu blockAbs keytype kid)⟩)
      else if probeOk card s.trace kid blockAbs keytype 3 = true then
        Except.ok ((3 : Int),
          ⟨s.trace ++ probeTrace kid blockAbs keytype 4,
            card.sw (s.trace ++ probeTrace kid blockAbs keytype 3 ++
                [Mifare.loadKeyApdu kid (Mifare.PUBLICKEYS.getD 3 [])])
              (Mifare.authApdu blockAbs keytype kid)⟩)
      else
        Except.ok ((-1 : Int),
          ⟨s.trace ++ probeTrace kid blockAbs keytype 4,
            card.sw (s.trace ++ probeTrace kid blockAbs keytype 3 ++
                [Mifare.loadKeyApdu kid (Mifare.PUBLICKEYS.getD 3 [])])
              (Mifare.authApdu blockAbs keytype kid)⟩)) := by
  subst hkid hblock
  simp only [List.getD_eq_getElem?_getD] at hload
  simp [Sector.authenticatePublic, Sector.authPublicLoop, Mifare.PUBLICKEYS,
    Sector.authenticate, authenticate_run, loadKey_run, hload, probeOk, probeTrace]

/-- C5: `authenticatePublic` probes the public key table in its fixed
order (empty key, MAD Key A, default Key B, NDEF Key A), loading each
candidate into the reader under this sector's key id before each
authentication attempt (the emitted command trace is `probeTrace`); it
returns the zero-based index of the first candidate whose authentication
succeeds — without attempting any later candidate, as the trace
`probeTrace kid blockAbs keytype (i+1)` stops right after attempt `i` —
and returns -1 after probing all four candidates when every attempt
fails. -/
theorem authenticatePublic_first_success (card : Card) (sec : Sector)
    (s : MifareSt) (block keytype kid blockAbs : Nat)
    (hkid : sec.keyid.getD (keytype - Mifare.KEY_A) 0 = kid)
    (hblock : (sec.no <<< 2) + block = blockAbs)
    (hload : ∀ (tr : List Apdu) (k : List Nat),
      card.sw tr (Mifare.loadKeyApdu kid k) = 0x9000) :
    Mifare.PUBLICKEYS =
      [[0xFF, 0xFF, 0xFF, 0xFF, 0xFF, 0xFF], [0xA0, 0xA1, 0xA2, 0xA3, 0xA4, 0xA5],
        [0xB0, 0xB1, 0xB2, 0xB3, 0xB4, 0xB5], [0xD3, 0xF7, 0xD3, 0xF7, 0xD3, 0xF7]] ∧
      probeTrace kid blockAbs keytype 4 =
        [Mifare.loadKeyApdu kid (Mifare.PUBLICKEYS.getD 0 []),
          Mifare.authApdu blockAbs keytype kid,
          Mifare.loadKeyApdu kid (Mifare.PUBLICKEYS.getD 1 []),
          Mifare.authApdu blockAbs keytype kid,
          Mifare.loadKeyApdu kid (Mifare.PUBLICKEYS.getD 2 []),
          Mifare.authApdu blockAbs keytype kid,
          Mifare.loadKeyApdu kid (Mifare.PUBLICKEYS.getD 3 []),
          Mifare.authApdu blockAbs keytype kid] ∧
      (∀ i, i < 4 →
        (∀ j, j < i → probeOk card s.trace kid blockAbs keytype j = false) →
        probeOk card s.trace kid blockAbs keytype i = true →
        Sector.authenticatePublic card sec s block keytype =
          Except.ok ((i : Int),
            ⟨s.trace ++ probeTrace kid blockAbs keytype (i + 1), 0x9000⟩)) ∧
      ((∀ i, i < 4 → probeOk card s.trace kid blockAbs keytype i = false) →
        Sector.authenticatePublic card sec s block keytype =
          Except.ok ((-1 : Int),
            ⟨s.trace ++ probeTrace kid blockAbs keytype 4,
              card.sw (s.trace ++ probeTrace kid blockAbs keytype 3 ++
                  [Mifare.loadKeyApdu kid (Mifare.PUBLICKEYS.getD 3 [])])
                (Mifare.authApdu blockAbs keytype kid)⟩)) := by
  refine ⟨rfl, rfl, ?_, ?_⟩
  · intro i hi hprev hok
    have hsw : card.sw (s.trace ++ probeTrace kid blockAbs keytype i ++
        [Mifare.loadKeyApdu kid (Mifare.PUBLICKEYS.getD i [])])
        (Mifare.authApdu blockAbs keytype kid) = 0x9000 := by
      have h := hok
      rw [probeOk] at h
      exact of_decide_eq_true h
    rw [authPublic_eval card sec s block keytype kid blockAbs hkid hblock hload]
    interval_cases i
    · rw [if_pos hok, hsw]
      norm_num
    · have n0 : ¬(probeOk card s.trace kid blockAbs keytype 0 = true) := by
        simp [hprev 0 (by omega)]
      rw [if_neg n0, if_pos hok, hsw]
      norm_num
    · have n0 : ¬(probeOk card s.trace kid blockAbs keytype 0 = true) := by
        simp [hprev 0 (by omega)]
      have n1 : ¬(probeOk card s.trace kid blockAbs keytype 1 = true) := by
        simp [hprev 1 (by omega)]
      rw [if_neg n0, if_neg n1, if_pos hok, hsw]
      norm_num
    · have n0 : ¬(probeOk card s.trace kid blockAbs keytype 0 = true) := by
        simp [hprev 0 (by omega)]
      have n1 : ¬(probeOk card s.trace kid blockAbs keytype 1 = true) := by
        simp [hprev 1 (by omega)]
      have n2 : ¬(probeOk card s.trace kid blockAbs keytype 2 = true) := by
        simp [hprev 2 (by omega)]
      rw [if_neg n0, if_neg n1, if_neg n2, if_pos hok, hsw]
      norm_num
  · intro hall
    rw [authPublic_eval card sec s block keytype kid blockAbs hkid hblock hload]
    have n0 : ¬(probeOk card s.trace kid blockAbs keytype 0 = true) := by
      simp [hall 0 (by omega)]
    have n1 : ¬(probeOk card s.trace kid blockAbs keytype 1 = true) := by
      simp [hall 1 (by omega)]
    have n2 : ¬(probeOk card s.trace kid blockAbs keytype 2 = true) := by
      simp [hall 2 (by omega)]
    have n3 : ¬(probeOk card s.trace kid blockAbs keytype 3 = true) := by
      simp [hall 3 (by omega)]
    rw [if_neg n0, if_neg n1, if_neg n2, if_neg n3]

theorem authenticatePublic_first_success_witness :
    Mifare.PUBLICKEYS =
      [[0xFF, 0xFF, 0xFF, 0xFF, 0xFF, 0xFF], [0xA0, 0xA1, 0xA2, 0xA3, 0xA4, 0xA5],
        [0xB0, 0xB1, 0xB2, 0xB3, 0xB4, 0xB5], [0xD3, 0xF7, 0xD3, 0xF7, 0xD3, 0xF7]] ∧
      probeTrace 0 1 Mifare.KEY_A 4 =
        [Mifare.loadKeyApdu 0 (Mifare.PUBLICKEYS.getD 0 []),
          Mifare.authApdu 1 Mifare.KEY_A 0,
          Mifare.loadKeyApdu 0 (Mifare.PUBLICKEYS.getD 1 []),
          Mifare.authApdu 1 Mifare.KEY_A 0,
          Mifare.loadKeyApdu 0 (Mifare.PUBLICKEYS.getD 2 []),
          Mifare.authApdu 1 Mifare.KEY_A 0,
          Mifare.loadKeyApdu 0 (Mifare.PUBLICKEYS.getD 3 []),
          Mifare.authApdu 1 Mifare.KEY_A 0] ∧
      (∀ i, i < 4 →
        (∀ j, j < i → probeOk cardAccepts st0.trace 0 1 Mifare.KEY_A j = false) →
        probeOk cardAccepts st0.trace 0 1 Mifare.KEY_A i = true →
        Sector.authenticatePublic cardAccepts sector0 st0 1 Mifare.KEY_A =
          Except.ok ((i : Int),
            ⟨st0.trace ++ probeTrace 0 1 Mifare.KEY_A (i + 1), 0x9000⟩)) ∧
      ((∀ i, i < 4 → probeOk cardAccepts st0.trace 0 1 Mifare.KEY_A i = false) →
        Sector.authenticatePublic cardAccepts sector0 st0 1 Mifare.KEY_A =
          Except.ok ((-1 : Int),
            ⟨st0.trace ++ probeTrace 0 1 Mifare.KEY_A 4,
              cardAccepts.sw (st0.trace ++ probeTrace 0 1 Mifare.KEY_A 3 ++
                  [Mifare.loadKeyApdu 0 (Mifare.PUBLICKEYS.getD 3 [])])
                (Mifare.authApdu 1 Mifare.KEY_A 0)⟩)) :=
  authenticatePublic_first_success cardAccepts sector0 st0 1 Mifare.KEY_A 0 1
    (by decide) (by decide) (fun _ _ => rfl)
